import Mathlib

/-!
Shallow embedding of `jobliterator` (`main.go`): a one-shot tool that finds
batch jobs past an age threshold, deletes their terminal pods and then the
jobs themselves (apply mode `-f`) or merely reports them (simulate mode), and
optionally (`-o`) correlates pods labelled `job-name=X` against existing jobs
to find orphaned pods.

Modelling conventions:
- API results that the Go code receives from the cluster client are inputs of
  the embedding (a `Cluster` record of response functions).
- `fmt.Printf` reporting and the delete calls are modelled as an event trace
  (`Event`); a Go `panic` (nil-pointer dereference) and fatal error paths are
  modelled with `Except.error`.
- The `ericchiang/k8s` client returns a `nil` object together with any non-nil
  error, so in `getOrphanedPods` a `GetJob` call that fails with an `APIError`
  of any code leaves `jobCheck == nil`; the embedding of `JobLookup` keeps the
  error's shape (API error with code, or non-API error) so this is visible.
- Go map iteration order is unspecified; the final `for k, v := range opJobSet`
  in `getOrphanedPods` is therefore parameterised by an arbitrary reordering
  `iter` of the association list that the insertions produced.
- Times are in whole seconds; `int(d.Hours() / 24)` on a duration of `s`
  seconds equals truncation toward zero of `s / 86400`, i.e. `Int.tdiv`.
-/

/-- Pod record kept by the tool (`kubePod` in `main.go`). -/
structure kubePod where
  name : String
  nspace : String
  phase : String
deriving DecidableEq, Repr

/-- Job record kept by the tool (`kubeJob` in `main.go`). -/
structure kubeJob where
  name : String
  nspace : String
  age : Int
  pods : List kubePod
deriving DecidableEq, Repr

/-- `kubeJobSet` from `main.go`: a map from job name to the pods carrying its
`job-name` label. Embedded as an association list in insertion order; the
unspecified Go map iteration order is applied separately (see `iter` below). -/
abbrev kubeJobSet := List (String × List kubePod)

/-- `(js kubeJobSet) Add(job, pod)`: appends `pod` to the entry for `job`,
creating the entry when absent. -/
def kubeJobSet.Add (js : kubeJobSet) (job : String) (pod : kubePod) : kubeJobSet :=
  if js.any (fun kv => kv.1 == job) then
    js.map (fun kv => if kv.1 == job then (kv.1, kv.2 ++ [pod]) else kv)
  else
    js ++ [(job, [pod])]

/-- A pod as returned by the cluster API (`pods.Items` entries): metadata name
and namespace, status phase, and its label map. Name, namespace and phase are
taken as present (the API always sets them; the code reads them via nil-safe
getters or after a successful list). -/
structure apiPod where
  name : String
  nspace : String
  phase : String
  labels : List (String × String)
deriving DecidableEq, Repr

/-- `p.Metadata.GetLabels()[key]` lookup on the label association list. -/
def getLabel (labels : List (String × String)) (key : String) : Option String :=
  (labels.find? (fun kv => kv.1 == key)).map (fun kv => kv.2)

/-- The `kubePod` that `getOrphanedPods` builds from an API pod. -/
def podOf (p : apiPod) : kubePod :=
  { name := p.name, nspace := p.nspace, phase := p.phase }

/-- Outcome of `client.BatchV1().GetJob(ctx, name, ns)`. `found` is a non-nil
job with nil error; the two error shapes mirror the Go code's type switch on
`*k8s.APIError`. In every error case the returned job pointer is nil. -/
inductive JobLookup where
  | found
  | apiError (code : Nat)
  | otherError (msg : String)
deriving DecidableEq, Repr

/-- The pod-scanning loop of `getOrphanedPods` (`main.go` lines 70-89): for
each pod carrying a `job-name` label, look the job up; a successful lookup
leaves the pod alone; an `*k8s.APIError` of any code leaves `jobCheck == nil`
(the 404 branch only re-assigns the nil it already holds), so the pod is added
to the orphan set; a non-API error aborts the whole pass. -/
def buildOpJobSet (gj : String → JobLookup) :
    List apiPod → kubeJobSet → Except String kubeJobSet
  | [], acc => .ok acc
  | p :: rest, acc =>
    match getLabel p.labels "job-name" with
    | none => buildOpJobSet gj rest acc
    | some val =>
      match gj val with
      | .found => buildOpJobSet gj rest acc
      | .apiError _ => buildOpJobSet gj rest (acc.Add val (podOf p))
      | .otherError msg => .error ("Error getting job: " ++ msg)

/-- `getOrphanedPods(client, kubeNamespace)` (`main.go` lines 62-98).
`podsResult` is the `ListPods` response; `iter` is the unspecified Go map
iteration order applied to the accumulated `opJobSet` before it is turned into
the returned `[]kubeJob` (every group gets `age: 0`). -/
def getOrphanedPods (gj : String → JobLookup) (podsResult : Except String (List apiPod))
    (kubeNamespace : String) (iter : kubeJobSet → kubeJobSet) :
    Except String (List kubeJob) :=
  match podsResult with
  | .error e => .error ("ERROR: " ++ e ++ ".")
  | .ok pods =>
    if pods.length > 0 then
      match buildOpJobSet gj pods [] with
      | .error e => .error e
      | .ok opJobSet =>
        .ok ((iter opJobSet).map (fun kv =>
          { name := kv.1, nspace := kubeNamespace, age := 0, pods := kv.2 }))
    else
      .error "Unable to find any pods."

/-- A job as returned by `ListJobs`: `j.Status.Active` is a nullable pointer
that the code dereferences unchecked, and the completion timestamp is read
through nil-safe getters (`GetCompletionTime().GetSeconds()`, `0` when
absent). -/
structure apiJob where
  name : String
  nspace : String
  active : Option Int
  completionSeconds : Option Int
deriving DecidableEq, Repr

/-- `j.Status.GetCompletionTime().GetSeconds()`: nil-safe, `0` when unset. -/
def jobCompletionSeconds (j : apiJob) : Int :=
  j.completionSeconds.getD 0

/-- `daysOld := int(now.Sub(completionTime).Hours() / 24)` with both times in
whole seconds: Go's float-to-int conversion truncates toward zero, which on the
exact value `s / 86400` is `Int.tdiv`. -/
def daysOld (nowSeconds ctSeconds : Int) : Int :=
  Int.tdiv (nowSeconds - ctSeconds) 86400

/-- Go panic message for dereferencing the nil `j.Status.Active` pointer. -/
def nilDerefMsg : String :=
  "panic: runtime error: invalid memory address or nil pointer dereference"

/-- The eligibility loop of `main` (`main.go` lines 122-133): skip a job iff
`*j.Status.Active == 1` (a nil `Active` pointer panics), compute `daysOld`, and
keep the job iff `daysOld >= *olderThanDays`. -/
def eligibleJobs (nowSeconds olderThanDays : Int) :
    List apiJob → Except String (List kubeJob)
  | [] => .ok []
  | j :: rest =>
    match j.active with
    | none => .error nilDerefMsg
    | some a =>
      if a == 1 then
        eligibleJobs nowSeconds olderThanDays rest
      else
        let d := daysOld nowSeconds (jobCompletionSeconds j)
        if d ≥ olderThanDays then
          (eligibleJobs nowSeconds olderThanDays rest).map
            (fun tail => { name := j.name, nspace := j.nspace, age := d, pods := [] } :: tail)
        else
          eligibleJobs nowSeconds olderThanDays rest

/-- The filter-map form of the eligibility loop, for stating its properties. -/
def eligibleSpec (nowSeconds olderThanDays : Int) (jobs : List apiJob) : List kubeJob :=
  (jobs.filter (fun j =>
      !(j.active == some 1) &&
        decide (olderThanDays ≤ daysOld nowSeconds (jobCompletionSeconds j)))).map
    (fun j => { name := j.name, nspace := j.nspace,
                age := daysOld nowSeconds (jobCompletionSeconds j), pods := [] })

/-- `*p.Status.Phase == "Succeeded" || *p.Status.Phase == "Failed"`. -/
def isTerminalPhase (phase : String) : Bool :=
  phase == "Succeeded" || phase == "Failed"

/-- One step of the program's observable behaviour: a mutating API call
(`delPod` / `delJob`) or a printed report/diagnostic line. -/
inductive Event where
  | delPod (p : kubePod)
  | delJob (name nspace : String)
  | podDeleteError (name msg : String)
  | jobDeleteError (name msg : String)
  | reportJob (name nspace : String) (age : Int)
  | reportPod (p : kubePod)
  | skipPod (name phase : String)
  | listError (job msg : String)
  | noEligiblePods (job : String)
  | noPods (job : String)
  | orphanJobHeader (name nspace : String)
  | orphanFetchError (msg : String)
  | orphanSummary (pods jobs : Nat)
deriving DecidableEq, Repr

/-- The partitioning loop over a fresh per-job pod listing (`main.go` lines
149-157 and 229-236): terminal-phase pods become `eligiblePods` (first
component); each non-terminal pod is reported skipped (second component, in
listing order). -/
def partitionPods : List apiPod → List kubePod × List Event
  | [] => ([], [])
  | p :: rest =>
    let pe := partitionPods rest
    if isTerminalPhase p.phase then
      (podOf p :: pe.1, pe.2)
    else
      (pe.1, Event.skipPod p.name p.phase :: pe.2)

/-- The deletion-candidate set of a listing: terminal-phase pods, in order. -/
def deletionCandidates (pods : List apiPod) : List kubePod :=
  (pods.filter (fun p => isTerminalPhase p.phase)).map podOf

/-- Cluster responses seen by one invocation: the job listing, the
namespace-wide pod listing and per-name job lookups used by the orphan pass,
the per-job labelled pod listings, and the outcomes of delete calls. -/
structure Cluster where
  nspace : String
  jobs : List apiJob
  pods : Except String (List apiPod)
  getJob : String → JobLookup
  listPodsByLabel : String → Except String (List apiPod)
  deletePodResult : kubePod → Except String Unit
  deleteJobResult : String → String → Except String Unit

/-- The pod-deletion loop (`main.go` lines 159-166): attempt every eligible
pod; a deletion error is reported and the loop continues. -/
def deletePodsEvents (c : Cluster) : List kubePod → List Event
  | [] => []
  | dp :: rest =>
    Event.delPod dp ::
      (match c.deletePodResult dp with
       | .error e => Event.podDeleteError dp.name e :: deletePodsEvents c rest
       | .ok _ => deletePodsEvents c rest)

/-- One eligible job's apply-mode cascade (`main.go` lines 136-178): report the
job, list its pods by label (a listing error skips the job entirely, job
deletion included), partition, delete the eligible pods, then delete the job;
a job-deletion error is reported and the outer loop continues. -/
def applyJobCascade (c : Cluster) (dj : kubeJob) : List Event :=
  Event.reportJob dj.name dj.nspace dj.age ::
    match c.listPodsByLabel dj.name with
    | .error e => [Event.listError dj.name e]
    | .ok pods =>
      (if pods.length > 0 then
        let pe := partitionPods pods
        pe.2 ++
          (if pe.1.length > 0 then deletePodsEvents c pe.1
           else [Event.noEligiblePods dj.name])
      else [Event.noPods dj.name]) ++
      (Event.delJob dj.name dj.nspace ::
        match c.deleteJobResult dj.name dj.nspace with
        | .error e => [Event.jobDeleteError dj.name e]
        | .ok _ => [])

/-- One eligible job's simulate-mode report (`main.go` lines 217-246): same
shape as the cascade with every delete call replaced by a report line and no
job deletion. -/
def simulateJobEvents (c : Cluster) (dj : kubeJob) : List Event :=
  Event.reportJob dj.name dj.nspace dj.age ::
    match c.listPodsByLabel dj.name with
    | .error e => [Event.listError dj.name e]
    | .ok pods =>
      if pods.length > 0 then
        let pe := partitionPods pods
        pe.2 ++
          (if pe.1.length > 0 then pe.1.map Event.reportPod
           else [Event.noEligiblePods dj.name])
      else [Event.noPods dj.name]

/-- Apply-mode main loop over the eligible jobs. -/
def applyModeEvents (c : Cluster) (ej : List kubeJob) : List Event :=
  (ej.map (applyJobCascade c)).flatten

/-- Simulate-mode main loop over the eligible jobs. -/
def simulateModeEvents (c : Cluster) (ej : List kubeJob) : List Event :=
  (ej.map (simulateJobEvents c)).flatten

/-- The orphan pod loop in apply mode (`main.go` lines 195-209): a terminal
pod is deleted (errors reported, loop continues); others are skipped. -/
def applyOrphanPodEvents (c : Cluster) : List kubePod → List Event
  | [] => []
  | op :: rest =>
    if isTerminalPhase op.phase then
      Event.delPod op ::
        (match c.deletePodResult op with
         | .error e => Event.podDeleteError op.name e :: applyOrphanPodEvents c rest
         | .ok _ => applyOrphanPodEvents c rest)
    else
      Event.skipPod op.name op.phase :: applyOrphanPodEvents c rest

/-- One orphan group in apply mode (`main.go` lines 189-211), including the
defensive empty-group guard. -/
def applyOrphanGroupEvents (c : Cluster) (g : kubeJob) : List Event :=
  Event.orphanJobHeader g.name g.nspace ::
    (if g.pods.length < 1 then [Event.noPods g.name]
     else applyOrphanPodEvents c g.pods)

/-- One orphan group in simulate mode (`main.go` lines 258-268): report
terminal pods, skip the rest (no empty-group guard in this branch). -/
def simOrphanGroupEvents (g : kubeJob) : List Event :=
  Event.orphanJobHeader g.name g.nspace ::
    g.pods.map (fun op =>
      if isTerminalPhase op.phase then Event.reportPod op
      else Event.skipPod op.name op.phase)

/-- `opCount` as both orphan branches compute it: the number of terminal-phase
pods across the groups. -/
def opCount (gs : List kubeJob) : Nat :=
  (gs.map (fun g => g.pods.countP (fun p => isTerminalPhase p.phase))).sum

/-- The optional orphan pass (`main.go` lines 180-214 / 249-272): fetch the
orphan groups, walk them in the mode-appropriate way, and always print the
totals line (with `opJobs = nil`, hence counts 0, after a fetch error). -/
def orphanSectionEvents (fl_delete fl_orphan : Bool) (c : Cluster)
    (iter : kubeJobSet → kubeJobSet) : List Event :=
  if fl_orphan then
    match getOrphanedPods c.getJob c.pods c.nspace iter with
    | .error e => [Event.orphanFetchError e, Event.orphanSummary 0 0]
    | .ok opJobs =>
      (opJobs.map (fun g =>
          if fl_delete then applyOrphanGroupEvents c g else simOrphanGroupEvents g)).flatten
        ++ [Event.orphanSummary (opCount opJobs) opJobs.length]
  else []

/-- Flag values of one invocation (`-f`, `-o`, `-days`). -/
structure Flags where
  deleteJobs : Bool
  orphanedPods : Bool
  olderThanDays : Int
deriving DecidableEq, Repr

/-- One whole invocation after a successful job listing (`main.go` lines
122-273): evaluate eligibility (a nil `Active` pointer panics the run), then
run the mode's main loop followed by the optional orphan pass. -/
def runMain (fl : Flags) (nowSeconds : Int) (c : Cluster)
    (iter : kubeJobSet → kubeJobSet) : Except String (List Event) :=
  match eligibleJobs nowSeconds fl.olderThanDays c.jobs with
  | .error e => .error e
  | .ok ej =>
    .ok ((if fl.deleteJobs then applyModeEvents c ej else simulateModeEvents c ej)
      ++ orphanSectionEvents fl.deleteJobs fl.orphanedPods c iter)

/-- `true` exactly on the mutating API calls in a trace. -/
def isDeleteAttempt : Event → Bool
  | .delPod _ => true
  | .delJob _ _ => true
  | _ => false

/-- The subtrace of mutating API calls. -/
def deleteAttempts (evs : List Event) : List Event :=
  evs.filter isDeleteAttempt

/-! ### Concrete instances used by witnesses and counterexamples -/

/-- A job with two active pods, completed at the epoch. -/
def jobActive2 : apiJob :=
  { name := "j", nspace := "ns", active := some 2, completionSeconds := some 0 }

/-- A job whose `Active` pointer is nil. -/
def jobNoActive : apiJob :=
  { name := "k", nspace := "ns", active := none, completionSeconds := some 0 }

/-- A terminal job whose recorded completion time lies 1.5 days in the
future of the chosen invocation time `1760000000`. -/
def jobFutureCT : apiJob :=
  { name := "f", nspace := "ns", active := some 0, completionSeconds := some 1760129600 }

/-- A terminal job completed at the epoch. -/
def jobOld : apiJob :=
  { name := "j1", nspace := "ns", active := some 0, completionSeconds := some 0 }

/-- A running pod labelled `job-name=X`. -/
def podRunningX : apiPod :=
  { name := "px", nspace := "ns", phase := "Running", labels := [("job-name", "X")] }

/-- A succeeded pod labelled `job-name=Y`. -/
def podSucceededY : apiPod :=
  { name := "py", nspace := "ns", phase := "Succeeded", labels := [("job-name", "Y")] }

/-- A succeeded pod labelled `job-name=j1`. -/
def podSucceededJ1 : apiPod :=
  { name := "p1", nspace := "ns", phase := "Succeeded", labels := [("job-name", "j1")] }

/-- A failed pod labelled `job-name=Z`. -/
def podFailedZ : apiPod :=
  { name := "pz", nspace := "ns", phase := "Failed", labels := [("job-name", "Z")] }

/-- A cluster with one old job `j1` owning one succeeded pod, and two
orphan-labelled pods `px` (running, label `X`) and `py` (succeeded, label
`Y`) whose jobs are gone (404); all delete calls succeed. -/
def clusterW : Cluster :=
  { nspace := "ns"
  , jobs := [jobOld]
  , pods := .ok [podRunningX, podSucceededY]
  , getJob := fun _ => .apiError 404
  , listPodsByLabel := fun _ => .ok [podSucceededJ1]
  , deletePodResult := fun _ => .ok ()
  , deleteJobResult := fun _ _ => .ok () }

/-- `clusterW` with a failing per-job pod listing. -/
def clusterListErr : Cluster :=
  { clusterW with listPodsByLabel := fun _ => .error "connection refused" }

/-- `clusterW` with failing delete calls. -/
def clusterDelErr : Cluster :=
  { clusterW with
      deletePodResult := fun _ => .error "pod delete failed"
      deleteJobResult := fun _ _ => .error "job delete failed" }

/-- A lookup that reports every job name as not found (HTTP 404). -/
def gj404 : String → JobLookup := fun _ => .apiError 404

/-- A lookup that fails with a non-404 API error for every job name. -/
def gj500 : String → JobLookup := fun _ => .apiError 500

/-- A lookup that fails with a non-API error for every job name. -/
def gjBoom : String → JobLookup := fun _ => .otherError "boom"

/-- The orphan groups produced for the single pod `podSucceededY` when every
lookup is a 404. -/
def res404 : List kubeJob :=
  [{ name := "Y", nspace := "ns", age := 0, pods := [podOf podSucceededY] }]

/-- Flags: apply mode with the orphan pass. -/
def flApplyOrphan : Flags := { deleteJobs := true, orphanedPods := true, olderThanDays := 7 }

/-- Flags: apply mode without the orphan pass. -/
def flApply : Flags := { deleteJobs := true, orphanedPods := false, olderThanDays := 7 }

/-- Flags: simulate mode with the orphan pass. -/
def flSimOrphan : Flags := { deleteJobs := false, orphanedPods := true, olderThanDays := 7 }

/-- `clusterW` with no jobs listed: only the orphan pass produces output. -/
def clusterC7 : Cluster := { clusterW with jobs := [] }

/-- `clusterW` whose per-job pod listing also returns a running pod. -/
def clusterMixed : Cluster :=
  { clusterW with listPodsByLabel := fun _ => .ok [podSucceededJ1, podRunningX] }

/-- The simulate+orphan trace of `clusterC7` under the insertion map order. -/
def evC7id : List Event :=
  [Event.orphanJobHeader "X" "ns", Event.skipPod "px" "Running",
   Event.orphanJobHeader "Y" "ns",
   Event.reportPod { name := "py", nspace := "ns", phase := "Succeeded" },
   Event.orphanSummary 1 2]

/-- The simulate+orphan trace of `clusterC7` under the reversed map order. -/
def evC7rev : List Event :=
  [Event.orphanJobHeader "Y" "ns",
   Event.reportPod { name := "py", nspace := "ns", phase := "Succeeded" },
   Event.orphanJobHeader "X" "ns", Event.skipPod "px" "Running",
   Event.orphanSummary 1 2]

/-- The eligible-job record that `clusterW`'s job listing produces. -/
def kjOld : kubeJob := { name := "j1", nspace := "ns", age := 10, pods := [] }

/-! ### Eligibility evaluator lemmas -/

/-- When every job's `Active` pointer is set, the eligibility loop does not
panic and computes exactly the filter-map `eligibleSpec`. -/
lemma eligibleJobs_eq_spec (nowS th : Int) :
    ∀ jobs : List apiJob, (∀ j ∈ jobs, j.active.isSome) →
      eligibleJobs nowS th jobs = .ok (eligibleSpec nowS th jobs) := by
  intro jobs
  induction jobs with
  | nil => intro _; rfl
  | cons j rest ih =>
    intro h
    have hj : j.active.isSome := h j (List.mem_cons_self _ _)
    have hrest := ih (fun i hi => h i (List.mem_cons_of_mem _ hi))
    obtain ⟨a, ha⟩ := Option.isSome_iff_exists.mp hj
    by_cases h1 : a = 1
    · subst h1
      simp [eligibleJobs, ha, hrest, eligibleSpec, List.filter]
    · have hbe : (a == 1) = false := beq_eq_false_iff_ne.mpr h1
      by_cases hd : th ≤ daysOld nowS (jobCompletionSeconds j)
      · simp [eligibleJobs, ha, hbe, hrest, eligibleSpec, List.filter, hd, Except.map]
      · simp [eligibleJobs, ha, hbe, hrest, eligibleSpec, List.filter, hd]

/-- A job whose `Active` pointer is nil makes the run panic, provided the loop
reaches it (every earlier job has the pointer set). -/
lemma eligibleJobs_panic (nowS th : Int) :
    ∀ (pre : List apiJob) (j : apiJob) (post : List apiJob), j.active = none →
      (∀ i ∈ pre, i.active.isSome) →
      eligibleJobs nowS th (pre ++ j :: post) = .error nilDerefMsg := by
  intro pre
  induction pre with
  | nil =>
    intro j post hj _
    simp [eligibleJobs, hj]
  | cons i rest ih =>
    intro j post hj h
    have hi : i.active.isSome := h i (List.mem_cons_self _ _)
    obtain ⟨a, ha⟩ := Option.isSome_iff_exists.mp hi
    have hrest := ih j post hj (fun q hq => h q (List.mem_cons_of_mem _ hq))
    by_cases h1 : a = 1
    · subst h1; simp [eligibleJobs, ha, hrest]
    · have hbe : (a == 1) = false := beq_eq_false_iff_ne.mpr h1
      by_cases hd : th ≤ daysOld nowS (jobCompletionSeconds i)
      · simp [eligibleJobs, ha, hbe, hd, hrest, Except.map]
      · simp [eligibleJobs, ha, hbe, hd, hrest]

/-- Truncation toward zero agrees with floor division on nonnegative
durations. -/
lemma tdiv_eq_fdiv_of_nonneg (a : Int) (h : 0 ≤ a) (b : Int) (hb : 0 ≤ b) :
    Int.tdiv a b = Int.fdiv a b := by
  obtain ⟨n, rfl⟩ : ∃ n : Nat, a = Int.ofNat n := ⟨a.toNat, (Int.toNat_of_nonneg h).symm⟩
  obtain ⟨m, rfl⟩ : ∃ m : Nat, b = Int.ofNat m := ⟨b.toNat, (Int.toNat_of_nonneg hb).symm⟩
  cases n <;> simp [Int.tdiv, Int.fdiv]

/-- A single terminal job (`Active` set and not `1`) is kept iff it is old
enough. -/
lemma eligibleJobs_singleton (nowS th : Int) (j : apiJob) (a : Int)
    (ha : j.active = some a) (h1 : a ≠ 1) :
    eligibleJobs nowS th [j] =
      .ok (if th ≤ daysOld nowS (jobCompletionSeconds j) then
        [{ name := j.name, nspace := j.nspace,
           age := daysOld nowS (jobCompletionSeconds j), pods := [] }]
      else []) := by
  have hbe : (a == 1) = false := beq_eq_false_iff_ne.mpr h1
  by_cases hd : th ≤ daysOld nowS (jobCompletionSeconds j) <;>
    simp [eligibleJobs, ha, hbe, hd, Except.map]

/-! ### Claim C2 -/

/-- C2 counterexample: `jobActive2` has active-count `2` (nonzero) yet the
code includes it in the eligible set — the source only skips on
`*j.Status.Active == 1`, so the claim "every job that is still active
(nonzero active-count) is excluded" is false. -/
theorem C2_counterexample :
    eligibleJobs 864000 7 [jobActive2] =
        .ok [{ name := "j", nspace := "ns", age := 10, pods := [] }] ∧
      jobActive2.active = some 2 ∧ (2 : Int) ≠ 0 := by
  refine ⟨rfl, rfl, by decide⟩

/-- C2 (amended): a listed job enters the eligible set iff its active-count
is set and not exactly `1` and it is old enough — the active filter skips
only `active == 1`, so active-counts `0, 2, 3, …` all proceed to the age
check; a job whose active-count is unset (nil pointer) makes the run panic
instead of being treated as terminal. -/
theorem C2_amended :
    (∀ (nowS th : Int) (jobs : List apiJob) (ej : List kubeJob),
        (∀ j ∈ jobs, j.active.isSome) →
        eligibleJobs nowS th jobs = .ok ej →
        ∀ kj : kubeJob, kj ∈ ej ↔ ∃ j ∈ jobs, j.active ≠ some 1 ∧
          th ≤ daysOld nowS (jobCompletionSeconds j) ∧
          kj = { name := j.name, nspace := j.nspace,
                 age := daysOld nowS (jobCompletionSeconds j), pods := [] }) ∧
    (∀ (nowS th : Int) (pre : List apiJob) (j : apiJob) (post : List apiJob),
        j.active = none → (∀ i ∈ pre, i.active.isSome) →
        eligibleJobs nowS th (pre ++ j :: post) = .error nilDerefMsg) := by
  constructor
  · intro nowS th jobs ej h hok kj
    rw [eligibleJobs_eq_spec nowS th jobs h] at hok
    cases hok
    simp only [eligibleSpec, List.mem_map, List.mem_filter, Bool.and_eq_true,
      Bool.not_eq_true', beq_eq_false_iff_ne, decide_eq_true_eq]
    constructor
    · rintro ⟨j, ⟨hmem, hne, hle⟩, rfl⟩
      exact ⟨j, hmem, hne, hle, rfl⟩
    · rintro ⟨j, hmem, hne, hle, rfl⟩
      exact ⟨j, ⟨hmem, hne, hle⟩, rfl⟩
  · exact fun nowS th pre j post hj h => eligibleJobs_panic nowS th pre j post hj h

/-- Witness for `C2_amended` at concrete inputs: the active-count-2 job is in
the computed eligible set, and a nil active-count panics. -/
theorem C2_amended_witness :
    (({ name := "j", nspace := "ns", age := 10, pods := [] } : kubeJob) ∈
        [({ name := "j", nspace := "ns", age := 10, pods := [] } : kubeJob)] ↔
      ∃ j ∈ [jobActive2], j.active ≠ some 1 ∧
        (7 : Int) ≤ daysOld 864000 (jobCompletionSeconds j) ∧
        ({ name := "j", nspace := "ns", age := 10, pods := [] } : kubeJob) =
          { name := j.name, nspace := j.nspace,
            age := daysOld 864000 (jobCompletionSeconds j), pods := [] }) ∧
    eligibleJobs 0 7 ([] ++ jobNoActive :: []) = .error nilDerefMsg := by
  constructor
  · exact C2_amended.1 864000 7 [jobActive2]
      [{ name := "j", nspace := "ns", age := 10, pods := [] }]
      (by decide) rfl _
  · exact C2_amended.2 0 7 [] jobNoActive [] rfl (by simp)

/-! ### Claim C6 -/

/-- C6 counterexample: with a completion time 1.5 days in the future and
threshold `-1`, the code computes `daysOld = -1` (Go's `int(...)` truncates
toward zero) and includes the job, while the claimed
`floor(hours/24) = -2 < -1` would exclude it. -/
theorem C6_counterexample :
    eligibleJobs 1760000000 (-1) [jobFutureCT] =
        .ok [{ name := "f", nspace := "ns", age := -1, pods := [] }] ∧
      Int.fdiv (1760000000 - 1760129600) 86400 = -2 ∧ ¬ ((-2 : Int) ≥ -1) := by
  refine ⟨rfl, by decide, by decide⟩

/-- C6 (amended): for a terminal job the code computes
`daysOld = trunc((now − completionTime)/86400)` (truncation toward zero,
which equals the claimed floor whenever the completion time is not in the
future), and the job is eligible iff `daysOld ≥ threshold`, with
`daysOld = threshold` included and `daysOld = threshold − 1` excluded. -/
theorem C6_amended :
    (∀ (nowS th : Int) (j : apiJob) (a : Int), j.active = some a → a ≠ 1 →
        (eligibleJobs nowS th [j] =
            .ok [{ name := j.name, nspace := j.nspace,
                   age := daysOld nowS (jobCompletionSeconds j), pods := [] }]
          ↔ th ≤ daysOld nowS (jobCompletionSeconds j))) ∧
    (∀ (nowS th : Int) (j : apiJob) (a : Int), j.active = some a → a ≠ 1 →
        ¬ th ≤ daysOld nowS (jobCompletionSeconds j) →
        eligibleJobs nowS th [j] = .ok []) ∧
    (∀ nowS ct : Int, ct ≤ nowS → daysOld nowS ct = Int.fdiv (nowS - ct) 86400) ∧
    (∀ (nowS th : Int) (j : apiJob) (a : Int), j.active = some a → a ≠ 1 →
        daysOld nowS (jobCompletionSeconds j) = th →
        eligibleJobs nowS th [j] =
          .ok [{ name := j.name, nspace := j.nspace, age := th, pods := [] }]) ∧
    (∀ (nowS th : Int) (j : apiJob) (a : Int), j.active = some a → a ≠ 1 →
        daysOld nowS (jobCompletionSeconds j) = th - 1 →
        eligibleJobs nowS th [j] = .ok []) := by
  refine ⟨?_, ?_, ?_, ?_, ?_⟩
  · intro nowS th j a ha h1
    rw [eligibleJobs_singleton nowS th j a ha h1]
    by_cases hd : th ≤ daysOld nowS (jobCompletionSeconds j) <;> simp [hd]
  · intro nowS th j a ha h1 hd
    rw [eligibleJobs_singleton nowS th j a ha h1]; simp [hd]
  · intro nowS ct h
    have h0 : (0 : Int) ≤ nowS - ct := by omega
    simpa [daysOld] using tdiv_eq_fdiv_of_nonneg (nowS - ct) h0 86400 (by omega)
  · intro nowS th j a ha h1 hd
    rw [eligibleJobs_singleton nowS th j a ha h1, hd]
    simp
  · intro nowS th j a ha h1 hd
    rw [eligibleJobs_singleton nowS th j a ha h1]
    have : ¬ th ≤ daysOld nowS (jobCompletionSeconds j) := by omega
    simp [this]

/-- Witness for `C6_amended` at concrete inputs. -/
theorem C6_amended_witness :
    (eligibleJobs 864000 7 [jobOld] =
        .ok [{ name := "j1", nspace := "ns", age := daysOld 864000 (jobCompletionSeconds jobOld),
               pods := [] }] ↔ (7 : Int) ≤ daysOld 864000 (jobCompletionSeconds jobOld)) ∧
    eligibleJobs 864000 11 [jobOld] = .ok [] ∧
    daysOld 864000 0 = Int.fdiv (864000 - 0) 86400 ∧
    eligibleJobs 864000 10 [jobOld] =
      .ok [{ name := "j1", nspace := "ns", age := 10, pods := [] }] ∧
    eligibleJobs 864000 11 [jobOld] = .ok [] := by
  refine ⟨C6_amended.1 864000 7 jobOld 0 rfl (by decide),
    C6_amended.2.1 864000 11 jobOld 0 rfl (by decide) (by decide),
    C6_amended.2.2.1 864000 0 (by decide),
    C6_amended.2.2.2.1 864000 10 jobOld 0 rfl (by decide) (by decide),
    C6_amended.2.2.2.2 864000 11 jobOld 0 rfl (by decide) (by decide)⟩

/-! ### Claim C8 -/

/-- C8: a job whose completion timestamp is absent or zero is aged from the
epoch (`GetCompletionTime().GetSeconds()` is `0`), so provided the job passes
the active filter it is eligible for every threshold at most the epoch age
`trunc(now/86400)`. -/
theorem C8_completion_epoch :
    ∀ (nowS th : Int) (j : apiJob) (a : Int),
      (j.completionSeconds = none ∨ j.completionSeconds = some 0) →
      j.active = some a → a ≠ 1 → th ≤ Int.tdiv nowS 86400 →
      eligibleJobs nowS th [j] =
        .ok [{ name := j.name, nspace := j.nspace,
               age := Int.tdiv nowS 86400, pods := [] }] := by
  intro nowS th j a hct ha h1 hth
  have hcs : jobCompletionSeconds j = 0 := by
    rcases hct with h | h <;> simp [jobCompletionSeconds, h]
  have hd : daysOld nowS (jobCompletionSeconds j) = Int.tdiv nowS 86400 := by
    simp [daysOld, hcs]
  rw [eligibleJobs_singleton nowS th j a ha h1, hd]
  simp [hth]

/-- Witness for `C8_completion_epoch`: a job with no completion timestamp,
evaluated ten days after the epoch against the default threshold `7`. -/
theorem C8_completion_epoch_witness :
    eligibleJobs 864000 7 [{ name := "n", nspace := "ns", active := some 0,
                             completionSeconds := none }] =
      .ok [{ name := "n", nspace := "ns", age := Int.tdiv 864000 86400, pods := [] }] :=
  C8_completion_epoch 864000 7
    { name := "n", nspace := "ns", active := some 0, completionSeconds := none } 0
    (Or.inl rfl) rfl (by decide) (by decide)

/-! ### Orphan correlator lemmas -/

/-- `Add` puts the added pod under its key. -/
lemma Add_mem_self (js : kubeJobSet) (X : String) (kp : kubePod) :
    ∃ ps, (X, ps) ∈ js.Add X kp ∧ kp ∈ ps := by
  unfold kubeJobSet.Add
  by_cases h : js.any (fun kv => kv.1 == X) = true
  · rw [if_pos h]
    obtain ⟨kv, hkv, hp⟩ := List.any_eq_true.mp h
    have hx : kv.1 = X := by simpa using hp
    refine ⟨kv.2 ++ [kp], ?_, by simp⟩
    have hmm := List.mem_map_of_mem
      (fun kv => if kv.1 == X then (kv.1, kv.2 ++ [kp]) else kv) hkv
    simpa [hx] using hmm
  · rw [if_neg h]
    exact ⟨[kp], by simp, by simp⟩

/-- `Add` keeps every pod already recorded under its key. -/
lemma Add_preserves (js : kubeJobSet) (X : String) (kp : kubePod)
    (k : String) (ps : List kubePod) (q : kubePod)
    (hmem : (k, ps) ∈ js) (hq : q ∈ ps) :
    ∃ ps', (k, ps') ∈ js.Add X kp ∧ q ∈ ps' := by
  unfold kubeJobSet.Add
  by_cases h : js.any (fun kv => kv.1 == X) = true
  · rw [if_pos h]
    have hmm := List.mem_map_of_mem
      (fun kv => if kv.1 == X then (kv.1, kv.2 ++ [kp]) else kv) hmem
    by_cases hkX : k = X
    · subst hkX
      exact ⟨ps ++ [kp], by simpa using hmm, List.mem_append_left _ hq⟩
    · have hbe : ((k == X) : Bool) = false := beq_eq_false_iff_ne.mpr hkX
      exact ⟨ps, by simpa [hbe] using hmm, hq⟩
  · rw [if_neg h]
    exact ⟨ps, List.mem_append_left _ hmem, hq⟩

/-- Every key of `Add js X kp` is a key of `js` or is `X`. -/
lemma mem_Add_key (js : kubeJobSet) (X : String) (kp : kubePod)
    (k : String) (ps : List kubePod) (h : (k, ps) ∈ js.Add X kp) :
    (∃ ps0, (k, ps0) ∈ js) ∨ k = X := by
  unfold kubeJobSet.Add at h
  by_cases ha : js.any (fun kv => kv.1 == X) = true
  · rw [if_pos ha] at h
    obtain ⟨kv, hkv, hEq⟩ := List.mem_map.mp h
    by_cases hx : (kv.1 == X) = true
    · rw [if_pos hx] at hEq
      have h1 : kv.1 = k := (Prod.ext_iff.mp hEq).1
      left
      exact ⟨kv.2, by rw [← h1]; exact hkv⟩
    · rw [if_neg hx] at hEq
      left
      exact ⟨ps, hEq ▸ hkv⟩
  · rw [if_neg ha] at h
    rcases List.mem_append.mp h with h | h
    · exact .inl ⟨ps, h⟩
    · right
      have : (k, ps) = (X, [kp]) := by simpa using h
      exact (Prod.ext_iff.mp this).1

/-- The scan never drops a recorded pod: anything in the accumulator survives
to a successful result. -/
lemma buildOpJobSet_preserves (gj : String → JobLookup) :
    ∀ (pods : List apiPod) (acc out : kubeJobSet),
      buildOpJobSet gj pods acc = .ok out →
      ∀ (k : String) (ps : List kubePod) (q : kubePod),
        (k, ps) ∈ acc → q ∈ ps → ∃ ps', (k, ps') ∈ out ∧ q ∈ ps' := by
  intro pods
  induction pods with
  | nil =>
    intro acc out h k ps q hmem hq
    cases h
    exact ⟨ps, hmem, hq⟩
  | cons p rest ih =>
    intro acc out h k ps q hmem hq
    cases hl : getLabel p.labels "job-name" with
    | none =>
      simp only [buildOpJobSet, hl] at h
      exact ih acc out h k ps q hmem hq
    | some val =>
      cases hgj : gj val with
      | found =>
        simp only [buildOpJobSet, hl, hgj] at h
        exact ih acc out h k ps q hmem hq
      | apiError cde =>
        simp only [buildOpJobSet, hl, hgj] at h
        obtain ⟨ps', hmem', hq'⟩ := Add_preserves acc val (podOf p) k ps q hmem hq
        exact ih _ out h k ps' q hmem' hq'
      | otherError msg =>
        simp only [buildOpJobSet, hl, hgj] at h
        cases h

/-- A labelled pod whose job lookup fails with an API error (any code) ends up
recorded under its label in a successful scan. -/
lemma buildOpJobSet_adds (gj : String → JobLookup) :
    ∀ (pods : List apiPod) (acc out : kubeJobSet) (p : apiPod) (X : String) (cde : Nat),
      buildOpJobSet gj pods acc = .ok out → p ∈ pods →
      getLabel p.labels "job-name" = some X → gj X = .apiError cde →
      ∃ ps, (X, ps) ∈ out ∧ podOf p ∈ ps := by
  intro pods
  induction pods with
  | nil =>
    intro acc out p X cde _ hp
    cases hp
  | cons q rest ih =>
    intro acc out p X cde h hp hlab hgj
    rcases List.mem_cons.mp hp with rfl | hp'
    · simp only [buildOpJobSet, hlab, hgj] at h
      obtain ⟨ps0, hmem0, hq0⟩ := Add_mem_self acc X (podOf p)
      exact buildOpJobSet_preserves gj rest _ out h X ps0 (podOf p) hmem0 hq0
    · cases hl : getLabel q.labels "job-name" with
      | none =>
        simp only [buildOpJobSet, hl] at h
        exact ih acc out p X cde h hp' hlab hgj
      | some val =>
        cases hgj2 : gj val with
        | found =>
          simp only [buildOpJobSet, hl, hgj2] at h
          exact ih acc out p X cde h hp' hlab hgj
        | apiError c2 =>
          simp only [buildOpJobSet, hl, hgj2] at h
          exact ih _ out p X cde h hp' hlab hgj
        | otherError m =>
          simp only [buildOpJobSet, hl, hgj2] at h
          cases h

/-- Every key of a successful scan's result comes from the accumulator or
from some listed pod labelled with that key whose lookup was an API error. -/
lemma buildOpJobSet_keys (gj : String → JobLookup) :
    ∀ (pods : List apiPod) (acc out : kubeJobSet),
      buildOpJobSet gj pods acc = .ok out →
      ∀ (k : String) (ps : List kubePod), (k, ps) ∈ out →
        (∃ ps0, (k, ps0) ∈ acc) ∨
          ∃ q ∈ pods, getLabel q.labels "job-name" = some k ∧
            ∃ cde, gj k = .apiError cde := by
  intro pods
  induction pods with
  | nil =>
    intro acc out h k ps hk
    cases h
    exact .inl ⟨ps, hk⟩
  | cons q rest ih =>
    intro acc out h k ps hk
    cases hl : getLabel q.labels "job-name" with
    | none =>
      simp only [buildOpJobSet, hl] at h
      rcases ih acc out h k ps hk with h' | ⟨r, hr, hrl, hc⟩
      · exact .inl h'
      · exact .inr ⟨r, List.mem_cons_of_mem _ hr, hrl, hc⟩
    | some val =>
      cases hgj : gj val with
      | found =>
        simp only [buildOpJobSet, hl, hgj] at h
        rcases ih acc out h k ps hk with h' | ⟨r, hr, hrl, hc⟩
        · exact .inl h'
        · exact .inr ⟨r, List.mem_cons_of_mem _ hr, hrl, hc⟩
      | apiError cde =>
        simp only [buildOpJobSet, hl, hgj] at h
        rcases ih _ out h k ps hk with h' | ⟨r, hr, hrl, hc⟩
        · obtain ⟨ps0, hps0⟩ := h'
          rcases mem_Add_key acc val (podOf q) k ps0 hps0 with h'' | rfl
          · exact .inl h''
          · exact .inr ⟨q, List.mem_cons_self _ _, hl, cde, hgj⟩
        · exact .inr ⟨r, List.mem_cons_of_mem _ hr, hrl, hc⟩
      | otherError m =>
        simp only [buildOpJobSet, hl, hgj] at h
        cases h

/-- A labelled pod whose job lookup fails with a non-API error makes the whole
scan abort with an error. -/
lemma buildOpJobSet_aborts (gj : String → JobLookup) :
    ∀ (pods : List apiPod) (acc : kubeJobSet) (p : apiPod) (X msg : String),
      p ∈ pods → getLabel p.labels "job-name" = some X → gj X = .otherError msg →
      ∃ e, buildOpJobSet gj pods acc = .error e := by
  intro pods
  induction pods with
  | nil =>
    intro _ _ _ _ hp
    cases hp
  | cons q rest ih =>
    intro acc p X msg hp hlab hgj
    rcases List.mem_cons.mp hp with rfl | hp'
    · exact ⟨"Error getting job: " ++ msg, by simp [buildOpJobSet, hlab, hgj]⟩
    · cases hl : getLabel q.labels "job-name" with
      | none =>
        obtain ⟨e, he⟩ := ih acc p X msg hp' hlab hgj
        exact ⟨e, by simp [buildOpJobSet, hl, he]⟩
      | some val =>
        cases hgj2 : gj val with
        | found =>
          obtain ⟨e, he⟩ := ih acc p X msg hp' hlab hgj
          exact ⟨e, by simp [buildOpJobSet, hl, hgj2, he]⟩
        | apiError c2 =>
          obtain ⟨e, he⟩ := ih (acc.Add val (podOf q)) p X msg hp' hlab hgj
          exact ⟨e, by simp [buildOpJobSet, hl, hgj2, he]⟩
        | otherError m2 =>
          exact ⟨"Error getting job: " ++ m2, by simp [buildOpJobSet, hl, hgj2]⟩

/-- Inversion of a successful `getOrphanedPods` call on a successful pod
listing. -/
lemma getOrphanedPods_ok_inv (gj : String → JobLookup) (pods : List apiPod)
    (ns : String) (iter : kubeJobSet → kubeJobSet) (res : List kubeJob)
    (h : getOrphanedPods gj (.ok pods) ns iter = .ok res) :
    pods.length > 0 ∧ ∃ out, buildOpJobSet gj pods [] = .ok out ∧
      res = (iter out).map (fun kv =>
        { name := kv.1, nspace := ns, age := 0, pods := kv.2 }) := by
  simp only [getOrphanedPods] at h
  by_cases hlen : pods.length > 0
  · rw [if_pos hlen] at h
    cases hb : buildOpJobSet gj pods [] with
    | error e =>
      rw [hb] at h
      cases h
    | ok out =>
      rw [hb] at h
      cases h
      exact ⟨hlen, out, rfl, rfl⟩
  · rw [if_neg hlen] at h
    cases h

/-- Shared direction for C1/C4: a pod labelled `X` whose lookup is an API
error appears under group `X` in every successful orphan pass. -/
lemma orphan_group_of_apiError (gj : String → JobLookup) (pods : List apiPod)
    (ns : String) (iter : kubeJobSet → kubeJobSet) (p : apiPod) (X : String)
    (cde : Nat) (res : List kubeJob)
    (hiter : ∀ l : kubeJobSet, (iter l).Perm l)
    (hp : p ∈ pods) (hlab : getLabel p.labels "job-name" = some X)
    (hgj : gj X = .apiError cde)
    (hok : getOrphanedPods gj (.ok pods) ns iter = .ok res) :
    ∃ g, g ∈ res ∧ g.name = X ∧ podOf p ∈ g.pods := by
  obtain ⟨-, out, hout, rfl⟩ := getOrphanedPods_ok_inv gj pods ns iter _ hok
  obtain ⟨ps, hmem, hpod⟩ := buildOpJobSet_adds gj pods [] out p X cde hout hp hlab hgj
  have hmem' : (X, ps) ∈ iter out := (hiter out).mem_iff.mpr hmem
  exact ⟨{ name := X, nspace := ns, age := 0, pods := ps },
    List.mem_map_of_mem _ hmem', rfl, hpod⟩

/-! ### Claim C1 -/

/-- C1 counterexample: when `getJob(X)` fails with API code 500 — not
not-found — the pod labelled `job-name=X` is still classified orphaned,
because the client returned a nil job with the error and the code only
inspects the 404 case before testing `jobCheck == nil`; so "orphaned iff
`getJob(X)` returns not-found (404)" is false on this input. -/
theorem C1_counterexample :
    getOrphanedPods gj500 (.ok [podRunningX]) "ns" id =
        .ok [{ name := "X", nspace := "ns", age := 0,
               pods := [{ name := "px", nspace := "ns", phase := "Running" }] }] ∧
      gj500 "X" ≠ JobLookup.apiError 404 := by
  exact ⟨rfl, by decide⟩

/-- C1 (amended): in a successful orphan pass, a pod carrying `job-name=X`
is classified orphaned (appears under a group named `X`) iff `getJob(X)`
failed with an API error of any code — not only 404; and when the job `X`
exists no orphan group named `X` is produced at all, so the pod is excluded
even when its phase is terminal. -/
theorem C1_amended :
    ∀ (gj : String → JobLookup) (pods : List apiPod) (ns : String)
      (iter : kubeJobSet → kubeJobSet) (p : apiPod) (X : String) (res : List kubeJob),
      (∀ l : kubeJobSet, (iter l).Perm l) →
      p ∈ pods → getLabel p.labels "job-name" = some X →
      getOrphanedPods gj (.ok pods) ns iter = .ok res →
      ((∃ g, g ∈ res ∧ g.name = X ∧ podOf p ∈ g.pods) ↔
          ∃ cde, gj X = .apiError cde) ∧
        (gj X = .found → ∀ g ∈ res, g.name ≠ X) := by
  intro gj pods ns iter p X res hiter hp hlab hok
  have hname : ∀ g ∈ res, g.name = X →
      ∃ cde, gj X = .apiError cde := by
    intro g hg hgname
    obtain ⟨-, out, hout, rfl⟩ := getOrphanedPods_ok_inv gj pods ns iter _ hok
    obtain ⟨kv, hkv, rfl⟩ := List.mem_map.mp hg
    have hkv' : kv ∈ out := (hiter out).mem_iff.mp hkv
    have hXkv : kv.1 = X := hgname
    rcases buildOpJobSet_keys gj pods [] out hout kv.1 kv.2
        (by rw [← Prod.mk.eta (p := kv)] at hkv'; exact hkv') with h' | ⟨q, _, _, cde, hc⟩
    · obtain ⟨ps0, hps0⟩ := h'
      cases hps0
    · exact ⟨cde, hXkv ▸ hc⟩
  constructor
  · constructor
    · rintro ⟨g, hg, hgname, -⟩
      exact hname g hg hgname
    · rintro ⟨cde, hc⟩
      exact orphan_group_of_apiError gj pods ns iter p X cde res hiter hp hlab hc hok
  · intro hfound g hg hgname
    obtain ⟨cde, hc⟩ := hname g hg hgname
    rw [hfound] at hc
    cases hc

/-- Witness for `C1_amended`: one succeeded pod labelled `Y` whose job is
gone (404) — the iff and the exclusion implication instantiated. -/
theorem C1_amended_witness :
    ((∃ g, g ∈ res404 ∧ g.name = "Y" ∧ podOf podSucceededY ∈ g.pods) ↔
        ∃ cde, gj404 "Y" = .apiError cde) ∧
      (gj404 "Y" = .found → ∀ g ∈ res404, g.name ≠ "Y") :=
  C1_amended gj404 [podSucceededY] "ns" id podSucceededY "Y" res404
    (fun l => List.Perm.refl l) (by simp) rfl rfl

/-! ### Claim C4 -/

/-- C4 counterexample: a job-lookup failure that is not an `*k8s.APIError`
aborts the whole orphan pass with an error — it is not surfaced as a
per-key diagnostic with the remaining keys still processed, contradicting
the claim that such failures are non-fatal. -/
theorem C4_counterexample :
    getOrphanedPods (fun _ => .otherError "connection reset")
        (.ok [podFailedZ]) "ns" id =
      .error "Error getting job: connection reset" := rfl

/-- C4 (amended): during orphan correlation, a job-lookup failure that is
not an API-error value aborts the whole pass (the function returns an
error); a lookup failure that is an API error with any code — 404 or not —
does not skip that key's classification: the pod is classified orphaned
exactly as in the not-found case, with no per-key diagnostic. -/
theorem C4_amended :
    (∀ (gj : String → JobLookup) (pods : List apiPod) (ns : String)
        (iter : kubeJobSet → kubeJobSet) (p : apiPod) (X msg : String),
        p ∈ pods → getLabel p.labels "job-name" = some X →
        gj X = .otherError msg →
        ∃ e, getOrphanedPods gj (.ok pods) ns iter = .error e) ∧
    (∀ (gj : String → JobLookup) (pods : List apiPod) (ns : String)
        (iter : kubeJobSet → kubeJobSet) (p : apiPod) (X : String) (cde : Nat)
        (res : List kubeJob),
        (∀ l : kubeJobSet, (iter l).Perm l) →
        p ∈ pods → getLabel p.labels "job-name" = some X →
        gj X = .apiError cde →
        getOrphanedPods gj (.ok pods) ns iter = .ok res →
        ∃ g, g ∈ res ∧ g.name = X ∧ podOf p ∈ g.pods) := by
  constructor
  · intro gj pods ns iter p X msg hp hlab hgj
    have hlen : pods.length > 0 := List.length_pos.mpr (List.ne_nil_of_mem hp)
    obtain ⟨e, he⟩ := buildOpJobSet_aborts gj pods [] p X msg hp hlab hgj
    exact ⟨e, by simp [getOrphanedPods, hlen, he]⟩
  · intro gj pods ns iter p X cde res hiter hp hlab hgj hok
    exact orphan_group_of_apiError gj pods ns iter p X cde res hiter hp hlab hgj hok

/-- Witness for `C4_amended`: both conjuncts at one-pod listings, with a
non-API failing lookup and a 500 API-error lookup respectively. -/
theorem C4_amended_witness :
    (∃ e, getOrphanedPods gjBoom (.ok [podRunningX]) "ns" id = .error e) ∧
      ∃ g, g ∈ ([{ name := "X", nspace := "ns", age := 0,
                   pods := [podOf podRunningX] }] : List kubeJob) ∧
        g.name = "X" ∧ podOf podRunningX ∈ g.pods := by
  constructor
  · exact C4_amended.1 gjBoom [podRunningX] "ns" id podRunningX "X" "boom"
      (by simp) rfl rfl
  · exact C4_amended.2 gj500 [podRunningX] "ns" id podRunningX "X" 500
      [{ name := "X", nspace := "ns", age := 0, pods := [podOf podRunningX] }]
      (fun l => List.Perm.refl l) (by simp) rfl rfl rfl

/-! ### Claim C10 -/

/-- C10: when the pod listing used by orphan correlation returns zero pods,
`getOrphanedPods` returns the error `"Unable to find any pods."` instead of
an empty orphan-group list, for every lookup function and namespace. -/
theorem C10_empty_listing_error :
    ∀ (gj : String → JobLookup) (ns : String) (iter : kubeJobSet → kubeJobSet),
      getOrphanedPods gj (.ok []) ns iter = .error "Unable to find any pods." :=
  fun _ _ _ => rfl

/-! ### Cascade executor lemmas -/

/-- The first component of the partition is the deletion-candidate set. -/
lemma partitionPods_fst (pods : List apiPod) :
    (partitionPods pods).1 = deletionCandidates pods := by
  induction pods with
  | nil => rfl
  | cons p rest ih =>
    by_cases h : isTerminalPhase p.phase <;>
      simp [partitionPods, deletionCandidates, List.filter_cons, h, ih]

/-- Every deletion candidate is in a terminal phase. -/
lemma partitionPods_fst_terminal (pods : List apiPod) (kp : kubePod)
    (h : kp ∈ (partitionPods pods).1) : isTerminalPhase kp.phase = true := by
  rw [partitionPods_fst] at h
  obtain ⟨p, hp, rfl⟩ := List.mem_map.mp h
  have := List.of_mem_filter hp
  simpa [podOf] using this

/-- The second component of the partition is all skip diagnostics. -/
lemma partitionPods_snd_skip (pods : List apiPod) :
    ∀ e ∈ (partitionPods pods).2, ∃ n ph, e = Event.skipPod n ph := by
  induction pods with
  | nil => intro e he; simp [partitionPods] at he
  | cons p rest ih =>
    intro e he
    by_cases h : isTerminalPhase p.phase
    · simp [partitionPods, h] at he
      exact ih e he
    · simp [partitionPods, h] at he
      rcases he with rfl | he
      · exact ⟨p.name, p.phase, rfl⟩
      · exact ih e he

/-- Every listed non-terminal pod gets a skip diagnostic in the partition. -/
lemma partitionPods_skip_mem (pods : List apiPod) (p : apiPod)
    (hp : p ∈ pods) (h : isTerminalPhase p.phase = false) :
    Event.skipPod p.name p.phase ∈ (partitionPods pods).2 := by
  induction pods with
  | nil => cases hp
  | cons q rest ih =>
    rcases List.mem_cons.mp hp with rfl | hp'
    · simp [partitionPods, h]
    · by_cases hq : isTerminalPhase q.phase
      · simp [partitionPods, hq]
        exact ih hp'
      · simp [partitionPods, hq]
        exact .inr (ih hp')

/-- The skip diagnostics contain no delete attempts. -/
lemma deleteAttempts_skips (pods : List apiPod) :
    deleteAttempts (partitionPods pods).2 = [] := by
  refine List.filter_eq_nil_iff.mpr ?_
  intro e he
  obtain ⟨n, ph, rfl⟩ := partitionPods_snd_skip pods e he
  simp [isDeleteAttempt]

/-- The pod-deletion loop attempts exactly the listed pods, in order,
whatever the delete results are. -/
lemma deleteAttempts_deletePodsEvents (c : Cluster) (l : List kubePod) :
    deleteAttempts (deletePodsEvents c l) = l.map Event.delPod := by
  induction l with
  | nil => rfl
  | cons dp rest ih =>
    cases hr : c.deletePodResult dp with
    | error e =>
      simpa [deletePodsEvents, hr, deleteAttempts, List.filter_cons,
        isDeleteAttempt] using ih
    | ok u =>
      simpa [deletePodsEvents, hr, deleteAttempts, List.filter_cons,
        isDeleteAttempt] using ih

/-- A pod whose deletion is attempted by the loop was in its input. -/
lemma mem_of_delPod_deletePodsEvents (c : Cluster) (l : List kubePod) (q : kubePod)
    (h : Event.delPod q ∈ deletePodsEvents c l) : q ∈ l := by
  induction l with
  | nil => simp [deletePodsEvents] at h
  | cons dp rest ih =>
    cases hr : c.deletePodResult dp with
    | error e =>
      simp only [deletePodsEvents, hr] at h
      rcases List.mem_cons.mp h with h1 | h2
      · injection h1 with hqd
        subst hqd
        exact List.mem_cons_self _ _
      · rcases List.mem_cons.mp h2 with h3 | h4
        · exact Event.noConfusion h3
        · exact List.mem_cons_of_mem _ (ih h4)
    | ok u =>
      simp only [deletePodsEvents, hr] at h
      rcases List.mem_cons.mp h with h1 | h2
      · injection h1 with hqd
        subst hqd
        exact List.mem_cons_self _ _
      · exact List.mem_cons_of_mem _ (ih h2)

/-- Every input pod of the loop has its deletion attempted. -/
lemma delPod_mem_deletePodsEvents (c : Cluster) (l : List kubePod) (q : kubePod)
    (h : q ∈ l) : Event.delPod q ∈ deletePodsEvents c l := by
  induction l with
  | nil => cases h
  | cons dp rest ih =>
    rcases List.mem_cons.mp h with rfl | h'
    · cases hr : c.deletePodResult q <;> simp only [deletePodsEvents, hr] <;>
        exact List.mem_cons_self _ _
    · cases hr : c.deletePodResult dp <;> simp only [deletePodsEvents, hr]
      · exact List.mem_cons_of_mem _ (List.mem_cons_of_mem _ (ih h'))
      · exact List.mem_cons_of_mem _ (ih h')

/-- A failing pod deletion is reported by the loop. -/
lemma podDeleteError_mem_deletePodsEvents (c : Cluster) (l : List kubePod)
    (q : kubePod) (e : String) (h : q ∈ l) (he : c.deletePodResult q = .error e) :
    Event.podDeleteError q.name e ∈ deletePodsEvents c l := by
  induction l with
  | nil => cases h
  | cons dp rest ih =>
    rcases List.mem_cons.mp h with rfl | h'
    · simp only [deletePodsEvents, he]
      exact List.mem_cons_of_mem _ (List.mem_cons_self _ _)
    · cases hr : c.deletePodResult dp <;> simp only [deletePodsEvents, hr]
      · exact List.mem_cons_of_mem _ (List.mem_cons_of_mem _ (ih h'))
      · exact List.mem_cons_of_mem _ (ih h')

/-- `deleteAttempts` distributes over append. -/
lemma deleteAttempts_append (a b : List Event) :
    deleteAttempts (a ++ b) = deleteAttempts a ++ deleteAttempts b :=
  List.filter_append _ _

/-- `deleteAttempts` on an empty trace. -/
lemma deleteAttempts_nil : deleteAttempts [] = [] := rfl

/-- One step of `deleteAttempts`. -/
lemma deleteAttempts_cons (e : Event) (l : List Event) :
    deleteAttempts (e :: l) =
      if isDeleteAttempt e then e :: deleteAttempts l else deleteAttempts l := by
  simp [deleteAttempts, List.filter_cons]

/-- One job's apply cascade with a successful listing attempts exactly its
deletion candidates, then the job — whatever every delete call returns. -/
lemma deleteAttempts_applyJobCascade_ok (c : Cluster) (dj : kubeJob)
    (pods : List apiPod) (h : c.listPodsByLabel dj.name = .ok pods) :
    deleteAttempts (applyJobCascade c dj) =
      (deletionCandidates pods).map Event.delPod ++
        [Event.delJob dj.name dj.nspace] := by
  by_cases hlen : pods.length > 0
  · by_cases hplen : (deletionCandidates pods).length > 0
    · cases hjr : c.deleteJobResult dj.name dj.nspace <;>
        simp [applyJobCascade, h, hjr, hlen, hplen, deleteAttempts_cons,
          deleteAttempts_append, deleteAttempts_nil, isDeleteAttempt,
          deleteAttempts_skips, deleteAttempts_deletePodsEvents, partitionPods_fst]
    · have h2 : deletionCandidates pods = [] :=
        List.length_eq_zero.mp (by omega)
      cases hjr : c.deleteJobResult dj.name dj.nspace <;>
        simp [applyJobCascade, h, hjr, hlen, hplen, h2, deleteAttempts_cons,
          deleteAttempts_append, deleteAttempts_nil, isDeleteAttempt,
          deleteAttempts_skips, partitionPods_fst]
  · have hnil : pods = [] := List.length_eq_zero.mp (by omega)
    subst hnil
    cases hjr : c.deleteJobResult dj.name dj.nspace <;>
      simp [applyJobCascade, h, hjr, deleteAttempts_cons, deleteAttempts_append,
        deleteAttempts_nil, isDeleteAttempt, deletionCandidates]

/-- A failing per-job pod listing produces no delete attempts at all for that
job: neither its pods nor the job itself are deleted. -/
lemma deleteAttempts_applyJobCascade_err (c : Cluster) (dj : kubeJob) (e : String)
    (h : c.listPodsByLabel dj.name = .error e) :
    deleteAttempts (applyJobCascade c dj) = [] := by
  simp [applyJobCascade, h, deleteAttempts_cons, deleteAttempts_nil, isDeleteAttempt]

/-- The apply-mode main loop is the concatenation of the per-job cascades. -/
lemma applyModeEvents_cons (c : Cluster) (dj : kubeJob) (rest : List kubeJob) :
    applyModeEvents c (dj :: rest) = applyJobCascade c dj ++ applyModeEvents c rest := by
  simp [applyModeEvents]

/-- The simulate-mode main loop is the concatenation of the per-job reports. -/
lemma simulateModeEvents_cons (c : Cluster) (dj : kubeJob) (rest : List kubeJob) :
    simulateModeEvents c (dj :: rest) =
      simulateJobEvents c dj ++ simulateModeEvents c rest := by
  simp [simulateModeEvents]

/-- A simulate-mode per-job report contains no delete attempt. -/
lemma simulateJobEvents_no_delete (c : Cluster) (dj : kubeJob) :
    ∀ e ∈ simulateJobEvents c dj, isDeleteAttempt e = false := by
  intro e he
  cases hl : c.listPodsByLabel dj.name with
  | error m =>
    simp only [simulateJobEvents, hl] at he
    rcases List.mem_cons.mp he with rfl | he'
    · rfl
    · rcases List.mem_cons.mp he' with rfl | he''
      · rfl
      · cases he''
  | ok pods =>
    simp only [simulateJobEvents, hl] at he
    rcases List.mem_cons.mp he with rfl | he'
    · rfl
    · by_cases hlen : pods.length > 0
      · rw [if_pos hlen] at he'
        rcases List.mem_append.mp he' with h2 | h2
        · obtain ⟨n, ph, rfl⟩ := partitionPods_snd_skip pods e h2
          rfl
        · by_cases hplen : (partitionPods pods).1.length > 0
          · rw [if_pos hplen] at h2
            obtain ⟨kp, -, rfl⟩ := List.mem_map.mp h2
            rfl
          · rw [if_neg hplen] at h2
            rcases List.mem_cons.mp h2 with rfl | h3
            · rfl
            · cases h3
      · rw [if_neg hlen] at he'
        rcases List.mem_cons.mp he' with rfl | h3
        · rfl
        · cases h3

/-- Simulate mode's main loop issues no delete attempts. -/
lemma deleteAttempts_simulateModeEvents (c : Cluster) (ej : List kubeJob) :
    deleteAttempts (simulateModeEvents c ej) = [] := by
  refine List.filter_eq_nil_iff.mpr ?_
  intro e he
  simp only [simulateModeEvents] at he
  obtain ⟨l, hl, hel⟩ := List.mem_flatten.mp he
  obtain ⟨dj, -, rfl⟩ := List.mem_map.mp hl
  simp [simulateJobEvents_no_delete c dj e hel]

/-- The orphan pod loop attempts exactly the terminal pods, in order,
whatever the delete results are. -/
lemma deleteAttempts_applyOrphanPodEvents (c : Cluster) (l : List kubePod) :
    deleteAttempts (applyOrphanPodEvents c l) =
      (l.filter (fun p => isTerminalPhase p.phase)).map Event.delPod := by
  induction l with
  | nil => rfl
  | cons op rest ih =>
    by_cases ht : isTerminalPhase op.phase
    · cases hr : c.deletePodResult op <;>
        simp [applyOrphanPodEvents, ht, hr, deleteAttempts_cons, isDeleteAttempt,
          List.filter_cons, ih]
    · simp [applyOrphanPodEvents, ht, deleteAttempts_cons, isDeleteAttempt,
        List.filter_cons, ih]

/-- One orphan group's apply cascade attempts exactly its terminal pods. -/
lemma deleteAttempts_applyOrphanGroupEvents (c : Cluster) (g : kubeJob) :
    deleteAttempts (applyOrphanGroupEvents c g) =
      (g.pods.filter (fun p => isTerminalPhase p.phase)).map Event.delPod := by
  by_cases hg : g.pods.length < 1
  · have hnil : g.pods = [] := List.length_eq_zero.mp (by omega)
    simp [applyOrphanGroupEvents, hg, hnil, deleteAttempts_cons, isDeleteAttempt,
      deleteAttempts_nil]
  · simp [applyOrphanGroupEvents, hg, deleteAttempts_cons, isDeleteAttempt,
      deleteAttempts_applyOrphanPodEvents]

/-- Every pod whose deletion the orphan loop attempts is terminal. -/
lemma delPod_applyOrphanPodEvents_terminal (c : Cluster) (l : List kubePod)
    (p : kubePod) (h : Event.delPod p ∈ applyOrphanPodEvents c l) :
    isTerminalPhase p.phase = true := by
  induction l with
  | nil => simp [applyOrphanPodEvents] at h
  | cons op rest ih =>
    by_cases ht : isTerminalPhase op.phase
    · cases hr : c.deletePodResult op with
      | error e =>
        simp only [applyOrphanPodEvents, ht, if_true, hr] at h
        rcases List.mem_cons.mp h with h1 | h1
        · injection h1 with hpo
          subst hpo
          exact ht
        · rcases List.mem_cons.mp h1 with h2 | h2
          · exact Event.noConfusion h2
          · exact ih h2
      | ok u =>
        simp only [applyOrphanPodEvents, ht, if_true, hr] at h
        rcases List.mem_cons.mp h with h1 | h1
        · injection h1 with hpo
          subst hpo
          exact ht
        · exact ih h1
    · simp only [applyOrphanPodEvents] at h
      rw [if_neg ht] at h
      rcases List.mem_cons.mp h with h1 | h1
      · exact Event.noConfusion h1
      · exact ih h1

/-- Every nonterminal orphan pod gets a skip diagnostic from the loop. -/
lemma skipPod_mem_applyOrphanPodEvents (c : Cluster) (l : List kubePod)
    (kp : kubePod) (h : kp ∈ l) (hnt : isTerminalPhase kp.phase = false) :
    Event.skipPod kp.name kp.phase ∈ applyOrphanPodEvents c l := by
  induction l with
  | nil => cases h
  | cons op rest ih =>
    rcases List.mem_cons.mp h with rfl | h'
    · simp only [applyOrphanPodEvents]
      rw [if_neg (by simp [hnt])]
      exact List.mem_cons_self _ _
    · by_cases ht : isTerminalPhase op.phase
      · cases hr : c.deletePodResult op with
        | error e =>
          simp only [applyOrphanPodEvents, ht, if_true, hr]
          exact List.mem_cons_of_mem _ (List.mem_cons_of_mem _ (ih h'))
        | ok u =>
          simp only [applyOrphanPodEvents, ht, if_true, hr]
          exact List.mem_cons_of_mem _ (ih h')
      · simp only [applyOrphanPodEvents]
        rw [if_neg (by simp [ht])]
        exact List.mem_cons_of_mem _ (ih h')

/-- Every pod deleted by one job's apply cascade is terminal. -/
lemma delPod_applyJobCascade_terminal (c : Cluster) (dj : kubeJob) (p : kubePod)
    (h : Event.delPod p ∈ applyJobCascade c dj) : isTerminalPhase p.phase = true := by
  cases hl : c.listPodsByLabel dj.name with
  | error e =>
    simp only [applyJobCascade, hl] at h
    rcases List.mem_cons.mp h with h1 | h1
    · exact Event.noConfusion h1
    · rcases List.mem_cons.mp h1 with h2 | h2
      · exact Event.noConfusion h2
      · cases h2
  | ok pods =>
    simp only [applyJobCascade, hl] at h
    rcases List.mem_cons.mp h with h1 | h1
    · exact Event.noConfusion h1
    rcases List.mem_append.mp h1 with h2 | h2
    · by_cases hlen : pods.length > 0
      · rw [if_pos hlen] at h2
        rcases List.mem_append.mp h2 with h3 | h3
        · obtain ⟨n, ph, hnp⟩ := partitionPods_snd_skip pods _ h3
          exact Event.noConfusion hnp
        · by_cases hplen : (partitionPods pods).1.length > 0
          · rw [if_pos hplen] at h3
            exact partitionPods_fst_terminal pods p
              (mem_of_delPod_deletePodsEvents c _ p h3)
          · rw [if_neg hplen] at h3
            rcases List.mem_cons.mp h3 with h4 | h4
            · exact Event.noConfusion h4
            · cases h4
      · rw [if_neg hlen] at h2
        rcases List.mem_cons.mp h2 with h4 | h4
        · exact Event.noConfusion h4
        · cases h4
    · rcases List.mem_cons.mp h2 with h3 | h3
      · exact Event.noConfusion h3
      · cases hjr : c.deleteJobResult dj.name dj.nspace with
        | error e2 =>
          simp only [hjr] at h3
          rcases List.mem_cons.mp h3 with h4 | h4
          · exact Event.noConfusion h4
          · cases h4
        | ok u =>
          simp only [hjr] at h3
          cases h3

/-- A simulate-mode orphan group report contains no delete attempt. -/
lemma simOrphanGroupEvents_no_delete (g : kubeJob) :
    ∀ e ∈ simOrphanGroupEvents g, isDeleteAttempt e = false := by
  intro e he
  simp only [simOrphanGroupEvents] at he
  rcases List.mem_cons.mp he with rfl | he'
  · rfl
  · obtain ⟨op, -, rfl⟩ := List.mem_map.mp he'
    by_cases ht : isTerminalPhase op.phase <;> simp [ht, isDeleteAttempt]

/-- Every pod deleted by the orphan pass is terminal, in both modes. -/
lemma delPod_orphanSection_terminal (fd fo : Bool) (c : Cluster)
    (iter : kubeJobSet → kubeJobSet) (p : kubePod)
    (h : Event.delPod p ∈ orphanSectionEvents fd fo c iter) :
    isTerminalPhase p.phase = true := by
  unfold orphanSectionEvents at h
  by_cases hfo : fo = true
  · rw [if_pos hfo] at h
    cases hg : getOrphanedPods c.getJob c.pods c.nspace iter with
    | error m =>
      simp only [hg] at h
      rcases List.mem_cons.mp h with h1 | h1
      · exact Event.noConfusion h1
      · rcases List.mem_cons.mp h1 with h2 | h2
        · exact Event.noConfusion h2
        · cases h2
    | ok opJobs =>
      simp only [hg] at h
      rcases List.mem_append.mp h with h2 | h2
      · obtain ⟨l, hl, hel⟩ := List.mem_flatten.mp h2
        obtain ⟨g, -, rfl⟩ := List.mem_map.mp hl
        by_cases hfd : fd = true
        · rw [if_pos hfd] at hel
          simp only [applyOrphanGroupEvents] at hel
          rcases List.mem_cons.mp hel with h4 | h4
          · exact Event.noConfusion h4
          · by_cases hg1 : g.pods.length < 1
            · rw [if_pos hg1] at h4
              rcases List.mem_cons.mp h4 with h5 | h5
              · exact Event.noConfusion h5
              · cases h5
            · rw [if_neg hg1] at h4
              exact delPod_applyOrphanPodEvents_terminal c g.pods p h4
        · rw [if_neg hfd] at hel
          have := simOrphanGroupEvents_no_delete g _ hel
          simp [isDeleteAttempt] at this
      · rcases List.mem_cons.mp h2 with h3 | h3
        · exact Event.noConfusion h3
        · cases h3
  · rw [if_neg hfo] at h
    cases h

/-- The simulate-mode orphan pass contains no delete attempt. -/
lemma orphanSectionEvents_sim_no_delete (fo : Bool) (c : Cluster)
    (iter : kubeJobSet → kubeJobSet) :
    ∀ e ∈ orphanSectionEvents false fo c iter, isDeleteAttempt e = false := by
  intro e he
  unfold orphanSectionEvents at he
  by_cases hfo : fo = true
  · rw [if_pos hfo] at he
    cases hg : getOrphanedPods c.getJob c.pods c.nspace iter with
    | error m =>
      simp only [hg] at he
      rcases List.mem_cons.mp he with rfl | h1
      · rfl
      · rcases List.mem_cons.mp h1 with rfl | h2
        · rfl
        · cases h2
    | ok opJobs =>
      simp only [hg] at he
      rcases List.mem_append.mp he with h2 | h2
      · obtain ⟨l, hl, hel⟩ := List.mem_flatten.mp h2
        obtain ⟨g, -, rfl⟩ := List.mem_map.mp hl
        refine simOrphanGroupEvents_no_delete g e ?_
        simpa using hel
      · rcases List.mem_cons.mp h2 with rfl | h3
        · rfl
        · cases h3
  · rw [if_neg hfo] at he
    cases he

/-- Inversion of a non-panicking run: the trace is the mode's main loop
followed by the orphan section. -/
lemma runMain_ok_inv (fl : Flags) (nowS : Int) (c : Cluster)
    (iter : kubeJobSet → kubeJobSet) (evs : List Event)
    (h : runMain fl nowS c iter = .ok evs) :
    ∃ ej, eligibleJobs nowS fl.olderThanDays c.jobs = .ok ej ∧
      evs = (if fl.deleteJobs then applyModeEvents c ej else simulateModeEvents c ej)
        ++ orphanSectionEvents fl.deleteJobs fl.orphanedPods c iter := by
  unfold runMain at h
  cases he : eligibleJobs nowS fl.olderThanDays c.jobs with
  | error e =>
    simp only [he] at h
    cases h
  | ok ej =>
    simp only [he] at h
    cases h
    exact ⟨ej, rfl, rfl⟩

/-- Every pod deleted by the apply-mode main loop is terminal. -/
lemma delPod_applyModeEvents_terminal (c : Cluster) (ej : List kubeJob)
    (p : kubePod) (h : Event.delPod p ∈ applyModeEvents c ej) :
    isTerminalPhase p.phase = true := by
  simp only [applyModeEvents] at h
  obtain ⟨l, hl, hel⟩ := List.mem_flatten.mp h
  obtain ⟨dj, -, rfl⟩ := List.mem_map.mp hl
  exact delPod_applyJobCascade_terminal c dj p hel

/-- Every listed non-terminal pod of a job cascade gets a skip diagnostic. -/
lemma skipPod_mem_applyJobCascade (c : Cluster) (dj : kubeJob) (pods : List apiPod)
    (p : apiPod) (hl : c.listPodsByLabel dj.name = .ok pods) (hp : p ∈ pods)
    (hnt : isTerminalPhase p.phase = false) :
    Event.skipPod p.name p.phase ∈ applyJobCascade c dj := by
  have hlen : pods.length > 0 := List.length_pos.mpr (List.ne_nil_of_mem hp)
  have hskip := partitionPods_skip_mem pods p hp hnt
  simp only [applyJobCascade, hl]
  rw [if_pos hlen]
  exact List.mem_cons_of_mem _
    (List.mem_append_left _ (List.mem_append_left _ hskip))

/-- Permutation-or-equality of the orphan pass under two map orders. -/
lemma getOrphanedPods_cases (gj : String → JobLookup)
    (pr : Except String (List apiPod)) (ns : String)
    (iter1 iter2 : kubeJobSet → kubeJobSet)
    (hiter : ∀ l : kubeJobSet, (iter1 l).Perm (iter2 l)) :
    (∃ e, getOrphanedPods gj pr ns iter1 = .error e ∧
        getOrphanedPods gj pr ns iter2 = .error e) ∨
    (∃ r1 r2, getOrphanedPods gj pr ns iter1 = .ok r1 ∧
        getOrphanedPods gj pr ns iter2 = .ok r2 ∧ r1.Perm r2) := by
  cases pr with
  | error e => exact .inl ⟨"ERROR: " ++ e ++ ".", rfl, rfl⟩
  | ok pods =>
    by_cases hlen : pods.length > 0
    · cases hb : buildOpJobSet gj pods [] with
      | error e =>
        refine .inl ⟨e, ?_, ?_⟩ <;> simp [getOrphanedPods, hlen, hb]
      | ok out =>
        refine .inr ⟨(iter1 out).map (fun kv =>
            { name := kv.1, nspace := ns, age := 0, pods := kv.2 }),
          (iter2 out).map (fun kv =>
            { name := kv.1, nspace := ns, age := 0, pods := kv.2 }), ?_, ?_, ?_⟩
        · simp [getOrphanedPods, hlen, hb]
        · simp [getOrphanedPods, hlen, hb]
        · exact (hiter out).map _
    · refine .inl ⟨"Unable to find any pods.", ?_, ?_⟩ <;>
        simp [getOrphanedPods, hlen]

/-- The orphan section under two map orders is a permutation: the per-group
blocks are reordered and the totals line is unchanged. -/
lemma orphanSectionEvents_perm (fd fo : Bool) (c : Cluster)
    (iter1 iter2 : kubeJobSet → kubeJobSet)
    (hiter : ∀ l : kubeJobSet, (iter1 l).Perm (iter2 l)) :
    (orphanSectionEvents fd fo c iter1).Perm (orphanSectionEvents fd fo c iter2) := by
  unfold orphanSectionEvents
  by_cases hfo : fo = true
  · rw [if_pos hfo, if_pos hfo]
    rcases getOrphanedPods_cases c.getJob c.pods c.nspace iter1 iter2 hiter with
      ⟨e, h1, h2⟩ | ⟨r1, r2, h1, h2, hperm⟩
    · simp only [h1, h2]
      exact List.Perm.refl _
    · simp only [h1, h2]
      have hsum : opCount r1 = opCount r2 := (hperm.map _).sum_eq
      have hlen2 : r1.length = r2.length := hperm.length_eq
      rw [hsum, hlen2]
      exact List.Perm.append ((hperm.map _).flatten) (List.Perm.refl _)
  · rw [if_neg hfo, if_neg hfo]

/-! ### Claim C3 -/

/-- C3 counterexample: in apply mode with one eligible job whose per-job pod
listing fails, the run completes with no fatal error yet issues zero delete
calls — not one per eligible job: the failing listing skips that job's
entire cascade, its own deletion included. -/
theorem C3_counterexample :
    runMain flApply 864000 clusterListErr id =
        .ok [Event.reportJob "j1" "ns" 10,
             Event.listError "j1" "connection refused"] ∧
      eligibleJobs 864000 flApply.olderThanDays clusterListErr.jobs = .ok [kjOld] ∧
      deleteAttempts [Event.reportJob "j1" "ns" 10,
        Event.listError "j1" "connection refused"] = [] :=
  ⟨rfl, rfl, rfl⟩

/-- C3 (amended): simulate mode issues zero delete calls on any input; in
apply mode a job whose fresh pod listing succeeds gets exactly one delete
call per deletion-candidate pod followed by one for the job itself, a job
whose pod listing fails gets no delete calls at all, and an orphan group
gets exactly one delete call per terminal pod. -/
theorem C3_amended :
    (∀ (fl : Flags) (nowS : Int) (c : Cluster) (iter : kubeJobSet → kubeJobSet)
        (evs : List Event), fl.deleteJobs = false →
        runMain fl nowS c iter = .ok evs → deleteAttempts evs = []) ∧
    (∀ (c : Cluster) (dj : kubeJob) (pods : List apiPod),
        c.listPodsByLabel dj.name = .ok pods →
        deleteAttempts (applyJobCascade c dj) =
          (deletionCandidates pods).map Event.delPod ++
            [Event.delJob dj.name dj.nspace]) ∧
    (∀ (c : Cluster) (dj : kubeJob) (e : String),
        c.listPodsByLabel dj.name = .error e →
        deleteAttempts (applyJobCascade c dj) = []) ∧
    (∀ (c : Cluster) (g : kubeJob),
        deleteAttempts (applyOrphanGroupEvents c g) =
          (g.pods.filter (fun p => isTerminalPhase p.phase)).map Event.delPod) := by
  refine ⟨?_, deleteAttempts_applyJobCascade_ok, deleteAttempts_applyJobCascade_err,
    deleteAttempts_applyOrphanGroupEvents⟩
  intro fl nowS c iter evs hdel hok
  obtain ⟨ej, -, rfl⟩ := runMain_ok_inv fl nowS c iter evs hok
  have horph : deleteAttempts (orphanSectionEvents false fl.orphanedPods c iter) = [] :=
    List.filter_eq_nil_iff.mpr (fun e he => by
      simp [orphanSectionEvents_sim_no_delete fl.orphanedPods c iter e he])
  rw [hdel]
  simp [deleteAttempts_append, deleteAttempts_simulateModeEvents, horph]

/-- Witness for `C3_amended` at concrete inputs. -/
theorem C3_amended_witness :
    deleteAttempts evC7id = [] ∧
    deleteAttempts (applyJobCascade clusterW kjOld) =
      (deletionCandidates [podSucceededJ1]).map Event.delPod ++
        [Event.delJob "j1" "ns"] ∧
    deleteAttempts (applyJobCascade clusterListErr kjOld) = [] ∧
    deleteAttempts (applyOrphanGroupEvents clusterW
        { name := "X", nspace := "ns", age := 0, pods := [podOf podRunningX] }) =
      ([podOf podRunningX].filter (fun p => isTerminalPhase p.phase)).map
        Event.delPod := by
  refine ⟨?_, ?_, ?_, ?_⟩
  · exact C3_amended.1 flSimOrphan 0 clusterC7 id evC7id rfl rfl
  · exact C3_amended.2.1 clusterW kjOld [podSucceededJ1] rfl
  · exact C3_amended.2.2.1 clusterListErr kjOld "connection refused" rfl
  · exact C3_amended.2.2.2 clusterW _

/-! ### Claim C5 -/

/-- C5: no pod with a phase outside Succeeded/Failed is ever deleted — every
pod-delete attempt in any non-panicking run is of a terminal-phase pod — and
in both the job cascade and the orphan cascade a listed non-terminal pod is
skipped with a diagnostic. -/
theorem C5_nonterminal_never_deleted :
    (∀ (fl : Flags) (nowS : Int) (c : Cluster) (iter : kubeJobSet → kubeJobSet)
        (evs : List Event) (p : kubePod),
        runMain fl nowS c iter = .ok evs → Event.delPod p ∈ evs →
        isTerminalPhase p.phase = true) ∧
    (∀ (c : Cluster) (dj : kubeJob) (pods : List apiPod) (p : apiPod),
        c.listPodsByLabel dj.name = .ok pods → p ∈ pods →
        isTerminalPhase p.phase = false →
        Event.skipPod p.name p.phase ∈ applyJobCascade c dj) ∧
    (∀ (c : Cluster) (g : kubeJob) (kp : kubePod),
        kp ∈ g.pods → isTerminalPhase kp.phase = false →
        Event.skipPod kp.name kp.phase ∈ applyOrphanGroupEvents c g) := by
  refine ⟨?_, skipPod_mem_applyJobCascade, ?_⟩
  · intro fl nowS c iter evs p hok hmem
    obtain ⟨ej, -, rfl⟩ := runMain_ok_inv fl nowS c iter evs hok
    rcases List.mem_append.mp hmem with h1 | h1
    · by_cases hdel : fl.deleteJobs = true
      · rw [if_pos hdel] at h1
        exact delPod_applyModeEvents_terminal c ej p h1
      · rw [if_neg hdel] at h1
        simp only [simulateModeEvents] at h1
        obtain ⟨l, hl, hel⟩ := List.mem_flatten.mp h1
        obtain ⟨dj, -, rfl⟩ := List.mem_map.mp hl
        have := simulateJobEvents_no_delete c dj _ hel
        simp [isDeleteAttempt] at this
    · exact delPod_orphanSection_terminal fl.deleteJobs fl.orphanedPods c iter p h1
  · intro c g kp hkp hnt
    have hg : ¬ g.pods.length < 1 := by
      have := List.length_pos.mpr (List.ne_nil_of_mem hkp)
      omega
    simp only [applyOrphanGroupEvents]
    rw [if_neg hg]
    exact List.mem_cons_of_mem _ (skipPod_mem_applyOrphanPodEvents c g.pods kp hkp hnt)

/-- Witness for `C5_nonterminal_never_deleted`: the pod deleted in the
concrete apply run is `Succeeded`; the running pod `px` gets skip
diagnostics in both cascades. -/
theorem C5_witness :
    isTerminalPhase ({ name := "p1", nspace := "ns", phase := "Succeeded" } :
        kubePod).phase = true ∧
      Event.skipPod "px" "Running" ∈ applyJobCascade clusterMixed kjOld ∧
      Event.skipPod "px" "Running" ∈ applyOrphanGroupEvents clusterW
        { name := "X", nspace := "ns", age := 0, pods := [podOf podRunningX] } := by
  refine ⟨?_, ?_, ?_⟩
  · exact C5_nonterminal_never_deleted.1 flApplyOrphan 864000 clusterW id
      [Event.reportJob "j1" "ns" 10,
       Event.delPod { name := "p1", nspace := "ns", phase := "Succeeded" },
       Event.delJob "j1" "ns", Event.orphanJobHeader "X" "ns",
       Event.skipPod "px" "Running", Event.orphanJobHeader "Y" "ns",
       Event.delPod { name := "py", nspace := "ns", phase := "Succeeded" },
       Event.orphanSummary 1 2]
      { name := "p1", nspace := "ns", phase := "Succeeded" } rfl (by decide)
  · exact C5_nonterminal_never_deleted.2.1 clusterMixed kjOld
      [podSucceededJ1, podRunningX] podRunningX rfl (by decide) rfl
  · exact C5_nonterminal_never_deleted.2.2 clusterW
      { name := "X", nspace := "ns", age := 0, pods := [podOf podRunningX] }
      (podOf podRunningX) (by decide) rfl

/-! ### Claim C9 -/

/-- C9: delete failures are non-fatal and do not steer the cascade — the
sequence of attempted delete calls is unchanged under any change of the
delete-call outcomes; with a successful listing the job deletion is always
attempted, once, after all of that job's candidate pod deletions; and pod
and job deletion failures are reported inline. -/
theorem C9_delete_errors_nonfatal :
    (∀ (c c' : Cluster), c.listPodsByLabel = c'.listPodsByLabel →
        ∀ ej : List kubeJob,
          deleteAttempts (applyModeEvents c ej) =
            deleteAttempts (applyModeEvents c' ej)) ∧
    (∀ (c : Cluster) (dj : kubeJob) (pods : List apiPod),
        c.listPodsByLabel dj.name = .ok pods →
        deleteAttempts (applyJobCascade c dj) =
          (deletionCandidates pods).map Event.delPod ++
            [Event.delJob dj.name dj.nspace]) ∧
    (∀ (c : Cluster) (dj : kubeJob) (pods : List apiPod) (dp : kubePod) (e : String),
        c.listPodsByLabel dj.name = .ok pods → dp ∈ deletionCandidates pods →
        c.deletePodResult dp = .error e →
        Event.podDeleteError dp.name e ∈ applyJobCascade c dj) ∧
    (∀ (c : Cluster) (dj : kubeJob) (pods : List apiPod) (e : String),
        c.listPodsByLabel dj.name = .ok pods →
        c.deleteJobResult dj.name dj.nspace = .error e →
        Event.jobDeleteError dj.name e ∈ applyJobCascade c dj) := by
  refine ⟨?_, deleteAttempts_applyJobCascade_ok, ?_, ?_⟩
  · intro c c' hls ej
    induction ej with
    | nil => rfl
    | cons dj rest ih =>
      rw [applyModeEvents_cons, applyModeEvents_cons, deleteAttempts_append,
        deleteAttempts_append, ih]
      congr 1
      cases hl : c.listPodsByLabel dj.name with
      | error e =>
        rw [deleteAttempts_applyJobCascade_err c dj e hl,
          deleteAttempts_applyJobCascade_err c' dj e (by rw [← hls]; exact hl)]
      | ok pods =>
        rw [deleteAttempts_applyJobCascade_ok c dj pods hl,
          deleteAttempts_applyJobCascade_ok c' dj pods (by rw [← hls]; exact hl)]
  · intro c dj pods dp e hl hdp hde
    have hdp1 : dp ∈ (partitionPods pods).1 := by
      rw [partitionPods_fst]
      exact hdp
    have hplen : (partitionPods pods).1.length > 0 :=
      List.length_pos.mpr (List.ne_nil_of_mem hdp1)
    have hlen : pods.length > 0 := by
      simp only [deletionCandidates] at hdp
      obtain ⟨p, hp, -⟩ := List.mem_map.mp hdp
      exact List.length_pos.mpr (List.ne_nil_of_mem (List.mem_of_mem_filter hp))
    simp only [applyJobCascade, hl]
    rw [if_pos hlen, if_pos hplen]
    exact List.mem_cons_of_mem _ (List.mem_append_left _ (List.mem_append_right _
      (podDeleteError_mem_deletePodsEvents c _ dp e hdp1 hde)))
  · intro c dj pods e hl hje
    simp only [applyJobCascade, hl, hje]
    exact List.mem_cons_of_mem _ (List.mem_append_right _
      (List.mem_cons_of_mem _ (List.mem_cons_self _ _)))

/-- Witness for `C9_delete_errors_nonfatal`: a cluster whose every delete
call fails attempts the same deletions as one whose deletes succeed, and
reports both failures. -/
theorem C9_witness :
    deleteAttempts (applyModeEvents clusterDelErr [kjOld]) =
        deleteAttempts (applyModeEvents clusterW [kjOld]) ∧
      deleteAttempts (applyJobCascade clusterDelErr kjOld) =
        (deletionCandidates [podSucceededJ1]).map Event.delPod ++
          [Event.delJob "j1" "ns"] ∧
      Event.podDeleteError "p1" "pod delete failed" ∈
        applyJobCascade clusterDelErr kjOld ∧
      Event.jobDeleteError "j1" "job delete failed" ∈
        applyJobCascade clusterDelErr kjOld := by
  refine ⟨?_, ?_, ?_, ?_⟩
  · exact C9_delete_errors_nonfatal.1 clusterDelErr clusterW rfl [kjOld]
  · exact C9_delete_errors_nonfatal.2.1 clusterDelErr kjOld [podSucceededJ1] rfl
  · exact C9_delete_errors_nonfatal.2.2.1 clusterDelErr kjOld [podSucceededJ1]
      (podOf podSucceededJ1) "pod delete failed" rfl (by decide) rfl
  · exact C9_delete_errors_nonfatal.2.2.2 clusterDelErr kjOld [podSucceededJ1]
      "job delete failed" rfl rfl

/-! ### Claim C7 -/

/-- C7 counterexample: on one and the same cluster state, two simulate-mode
runs that differ only in the (unspecified) Go map iteration order over the
orphan set report the orphan groups in different orders — the reports do not
agree on order, though the two orders are permutations of the same map. -/
theorem C7_counterexample :
    runMain flSimOrphan 0 clusterC7 id = .ok evC7id ∧
      runMain flSimOrphan 0 clusterC7 List.reverse = .ok evC7rev ∧
      evC7id ≠ evC7rev ∧
      (List.reverse [("X", [podOf podRunningX]), ("Y", [podOf podSucceededY])] :
          kubeJobSet).Perm
        [("X", [podOf podRunningX]), ("Y", [podOf podSucceededY])] :=
  ⟨rfl, rfl, by decide, by decide⟩

/-- C7 (amended): two simulate runs on unchanged cluster state agree exactly
(content and order) on the eligible-job report; their orphan sections are
permutations of one another — the per-group blocks may be reordered by the
map iteration order, with an identical totals line — but the group order is
not guaranteed. -/
theorem C7_amended :
    ∀ (fl : Flags) (nowS : Int) (c : Cluster) (iter1 iter2 : kubeJobSet → kubeJobSet),
      fl.deleteJobs = false →
      (∀ l : kubeJobSet, (iter1 l).Perm (iter2 l)) →
      ∀ ej : List kubeJob, eligibleJobs nowS fl.olderThanDays c.jobs = .ok ej →
        runMain fl nowS c iter1 =
            .ok (simulateModeEvents c ej ++
              orphanSectionEvents false fl.orphanedPods c iter1) ∧
          runMain fl nowS c iter2 =
            .ok (simulateModeEvents c ej ++
              orphanSectionEvents false fl.orphanedPods c iter2) ∧
          (orphanSectionEvents false fl.orphanedPods c iter1).Perm
            (orphanSectionEvents false fl.orphanedPods c iter2) := by
  intro fl nowS c iter1 iter2 hdel hiter ej hej
  refine ⟨?_, ?_, orphanSectionEvents_perm false fl.orphanedPods c iter1 iter2 hiter⟩
  · simp [runMain, hej, hdel]
  · simp [runMain, hej, hdel]

/-- Witness for `C7_amended` on `clusterC7` with the identity and reversed
map orders. -/
theorem C7_amended_witness :
    (runMain flSimOrphan 0 clusterC7 id =
        .ok (simulateModeEvents clusterC7 [] ++
          orphanSectionEvents false true clusterC7 id)) ∧
      (runMain flSimOrphan 0 clusterC7 List.reverse =
        .ok (simulateModeEvents clusterC7 [] ++
          orphanSectionEvents false true clusterC7 List.reverse)) ∧
      (orphanSectionEvents false true clusterC7 id).Perm
        (orphanSectionEvents false true clusterC7 List.reverse) :=
  C7_amended flSimOrphan 0 clusterC7 id List.reverse rfl
    (fun l => (List.reverse_perm l).symm) [] rfl
